import Mathlib

/-!
Verification of the Resume-Screening core (text utilities, matcher scoring,
LLM-client parsing/fallback, and the NumPy-backed vector store) against its
natural-language specification.  Python floats are modelled as exact rationals
(`ℚ`) where the code only does field arithmetic, and as real numbers (`ℝ`)
where the code takes square roots (cosine similarity).  Python `None` becomes
`Option`, a raised exception becomes `Option.none` / a returned `Bool` flag,
and NumPy's `argsort` with its default (non-stable) sort kind is modelled
relationally by a permutation parameter constrained to sort the similarities.
-/

/-! ## Text utilities (`app/utils/text_utils.py`) -/

/-- Python whitespace class for ASCII text: the characters matched by `\s`
and stripped by `str.strip` ( space, tab, newline, carriage return,
vertical tab `\x0b`, form feed `\x0c`). -/
def isPyWS (c : Char) : Bool :=
  c == ' ' || c == '\t' || c == '\n' || c == '\r' ||
  c == Char.ofNat 11 || c == Char.ofNat 12

/-- `re.sub(r"\s+", " ", text)`: every maximal run of whitespace characters
is replaced by a single space (emitted at the end of the run, which preserves
the position of the following text). -/
def collapseWS : List Char → List Char
  | [] => []
  | [c] => if isPyWS c then [' '] else [c]
  | c :: d :: cs =>
    if isPyWS c && isPyWS d then collapseWS (d :: cs)
    else (if isPyWS c then ' ' else c) :: collapseWS (d :: cs)

/-- Remove leading whitespace (left half of `str.strip`). -/
def lstripC (l : List Char) : List Char := l.dropWhile isPyWS

/-- Remove trailing whitespace (right half of `str.strip`). -/
def rstripC (l : List Char) : List Char := ((l.reverse).dropWhile isPyWS).reverse

/-- Python `str.strip()`: drop whitespace from both ends. -/
def pyStrip (l : List Char) : List Char := rstripC (lstripC l)

/-- `clean_text`: `re.sub(r"\s+", " ", text).strip()`. -/
def clean_text (s : String) : String := String.mk (pyStrip (collapseWS s.data))

/-- Numeric value of an ASCII digit. -/
def digitVal (c : Char) : Nat := c.toNat - 48

/-- Case-insensitive match of the unit alternation `(?:years|yrs)` at the head
of the input (`years` tried first, as in the regex); returns the rest of the
input after the matched unit. -/
def matchUnit (cs : List Char) : Option (List Char) :=
  if (cs.take 5).map Char.toLower = "years".data then some (cs.drop 5)
  else if (cs.take 3).map Char.toLower = "yrs".data then some (cs.drop 3)
  else none

/-- The `(?:\+)?\s*(?:years|yrs)` tail of the experience regex: an optional
literal plus, then greedily consumed whitespace, then the unit. -/
def matchTail (cs : List Char) : Option (List Char) :=
  let cs1 := match cs with
    | '+' :: r => r
    | _ => cs
  matchUnit (cs1.dropWhile isPyWS)

/-- One attempted match of `(\d{1,2})(?:\+)?\s*(?:years|yrs)` anchored at the
head of the input.  `\d{1,2}` is greedy: two digits are preferred; when the
two-digit parse leaves a tail that cannot match, backtracking to one digit
necessarily fails too (the tail would then begin with a digit, which cannot
start `(?:\+)?\s*(?:years|yrs)`), so no explicit backtracking is needed. -/
def matchAt : List Char → Option (Nat × List Char)
  | [] => none
  | c :: cs =>
    if c.isDigit then
      match cs with
      | [] => none
      | d :: cs2 =>
        if d.isDigit then
          match matchTail cs2 with
          | some rest => some (digitVal c * 10 + digitVal d, rest)
          | none => none
        else
          match matchTail cs with
          | some rest => some (digitVal c, rest)
          | none => none
    else none

/-- `re.finditer` scan: try a match at each position, left to right,
non-overlapping (after a match, scanning resumes after the matched text).
Each step consumes at least one character, so fuel equal to the input length
is sufficient and the function is total. -/
def scanYearsF : Nat → List Char → List Nat
  | 0, _ => []
  | Nat.succ fuel, cs =>
    match matchAt cs with
    | some (v, rest) => v :: scanYearsF fuel rest
    | none =>
      match cs with
      | [] => []
      | _ :: cs2 => scanYearsF fuel cs2

/-- All numbers matched by `(\d{1,2})(?:\+)?\s*(?:years|yrs)` in the text. -/
def scanYears (cs : List Char) : List Nat := scanYearsF cs.length cs

/-- `estimate_years_of_experience`: the arithmetic mean of all matched
numbers, or `none` when there is no match. -/
def estimate_years_of_experience (s : String) : Option ℚ :=
  let ms := scanYears s.data
  if ms.isEmpty then none
  else some ((ms.sum : ℚ) / (ms.length : ℚ))

/-- `re.split(r"(?<=[.!?])\s+", text)`: the accumulator holds the current
fragment reversed; a whitespace character preceded by `.`, `!` or `?` starts
a separator, which greedily consumes the whole whitespace run. -/
def sentSplitGo : List Char → List Char → List (List Char)
  | acc, [] => [acc.reverse]
  | acc, c :: cs =>
    if isPyWS c && (match acc with
        | p :: _ => p == '.' || p == '!' || p == '?'
        | [] => false) then
      acc.reverse :: sentSplitGo [] (cs.dropWhile isPyWS)
    else
      sentSplitGo (c :: acc) cs
termination_by _ cs => cs.length
decreasing_by
  all_goals simp only [List.length_cons]
  · exact Nat.lt_succ_of_le (List.dropWhile_suffix _).length_le
  · exact Nat.lt_succ_self _

/-- `split_sentences`: split on punctuation-then-whitespace boundaries, strip
each fragment, and drop the empty ones. -/
def split_sentences (s : String) : List String :=
  (((sentSplitGo [] s.data).map pyStrip).filter (fun l => !l.isEmpty)).map String.mk

/-! ## LLM client (`app/utils/llm_client.py`) -/

/-- Is `small` a contiguous prefix of `big`? (character-by-character). -/
def startsWithL : List Char → List Char → Bool
  | [], _ => true
  | _ :: _, [] => false
  | a :: as, b :: bs => a == b && startsWithL as bs

/-- Python substring containment `needle in hay`. -/
def containsSub (needle : List Char) : List Char → Bool
  | [] => needle.isEmpty
  | c :: cs => startsWithL needle (c :: cs) || containsSub needle cs

/-- `line.split(":", 1)[-1]`: the text after the first colon, or the whole
line when it has no colon (a one-element split list). -/
def afterFirstColon (l : List Char) : List Char :=
  if l.contains ':' then (l.dropWhile (fun c => c != ':')).tail else l

/-- A character at which Python `str.splitlines` breaks a line. -/
def isLineBreak (c : Char) : Bool :=
  c == '\n' || c == '\r' || c.toNat == 11 || c.toNat == 12 ||
  c.toNat == 28 || c.toNat == 29 || c.toNat == 30 || c.toNat == 133 ||
  c.toNat == 8232 || c.toNat == 8233

/-- Python `str.splitlines`: `\r\n` counts as a single break, a trailing
break produces no extra empty line, and the empty string has no lines. -/
def splitLinesGo : List Char → List Char → List (List Char)
  | acc, [] => if acc.isEmpty then [] else [acc.reverse]
  | acc, '\r' :: '\n' :: cs => acc.reverse :: splitLinesGo [] cs
  | acc, c :: cs =>
    if isLineBreak c then acc.reverse :: splitLinesGo [] cs
    else splitLinesGo (c :: acc) cs

/-- The three feedback sections tracked by the response parser. -/
inductive FbKey
  | strengths
  | weaknesses
  | reasoning
deriving DecidableEq

/-- The parsed qualitative feedback returned by the client. -/
structure Feedback where
  strengths : String
  weaknesses : String
  reasoning : String
deriving DecidableEq

/-- The line scan of `_parse_llm_response`: a line containing `strength` /
`weakness` / `reason` (case-insensitively) starts that section with the
stripped text after its first colon; any other line is appended
(space-joined) onto the current section, and ignored if no section has
started yet. -/
def scanSecGo : Option FbKey → List Char × List Char × List Char →
    List (List Char) → List Char × List Char × List Char
  | _, secs, [] => secs
  | cur, (s, w, r), line :: rest =>
    let lower := line.map Char.toLower
    if containsSub "strength".data lower then
      scanSecGo (some FbKey.strengths) (pyStrip (afterFirstColon line), w, r) rest
    else if containsSub "weakness".data lower then
      scanSecGo (some FbKey.weaknesses) (s, pyStrip (afterFirstColon line), r) rest
    else if containsSub "reason".data lower then
      scanSecGo (some FbKey.reasoning) (s, w, pyStrip (afterFirstColon line)) rest
    else
      match cur with
      | some FbKey.strengths => scanSecGo cur (s ++ ' ' :: pyStrip line, w, r) rest
      | some FbKey.weaknesses => scanSecGo cur (s, w ++ ' ' :: pyStrip line, r) rest
      | some FbKey.reasoning => scanSecGo cur (s, w, r ++ ' ' :: pyStrip line) rest
      | none => scanSecGo cur (s, w, r) rest

/-- `v.strip() or "Not provided."`: the stripped section, or the literal
default when the stripped section is empty. -/
def finishSection (v : List Char) : String :=
  let v2 := pyStrip v
  if v2.isEmpty then "Not provided." else String.mk v2

/-- `_parse_llm_response`. -/
def parse_llm_response (content : String) : Feedback :=
  let secs := scanSecGo none ([], [], []) (splitLinesGo [] content.data)
  ⟨finishSection secs.1, finishSection secs.2.1, finishSection secs.2.2⟩

/-- `CANDIDATE_FEEDBACK_PROMPT.format(...)`: the fixed prompt template from
`app/prompts/analysis.py` with the three fields substituted. -/
def format_prompt (candidate_name job_description resume_text : String) : String :=
  "\nYou are an expert technical recruiter.\n" ++
  "Given the job description and a candidate resume, summarize:\n" ++
  "1. Key strengths (bullet friendly sentence).\n" ++
  "2. Potential weaknesses or red flags.\n" ++
  "3. Provide a short reasoning paragraph (2-3 sentences) on overall fit.\n\n" ++
  "Format response as:\nStrengths: ...\nWeaknesses: ...\nReasoning: ...\n\n" ++
  "Candidate: " ++ candidate_name ++ "\nJob Description:\n" ++ job_description ++
  "\n\nResume:\n" ++ resume_text ++ "\n"

/-- The fixed canned strengths sentence of the heuristic fallback. -/
def fallback_strengths : String := "Solid baseline profile with relevant experience."

/-- The fixed canned weaknesses sentence of the heuristic fallback. -/
def fallback_weaknesses : String := "Needs deeper alignment verification via interview."

/-- `" ".join` on character lists. -/
def joinSpace : List (List Char) → List Char
  | [] => []
  | [x] => x
  | x :: xs => x ++ ' ' :: joinSpace xs

/-- `analyze_candidate`.  The external generation call (`_call_ollama`
followed by response decoding, any step of which can raise) is modelled by
the parameter `callOllama`: `some content` is a successful call returning
`content`, `none` is any failure (network error, timeout, non-2xx status
raised by `raise_for_status`, or a body-parse error).  The prompt template is
a fixed non-empty string, so the `if self.prompt_template` guard is taken. -/
def analyze_candidate (callOllama : String → Option String)
    (candidate_name job_description resume_text : String) : Feedback :=
  match callOllama (format_prompt candidate_name job_description resume_text) with
  | some content => parse_llm_response content
  | none =>
    let sentences := split_sentences resume_text
    { strengths := fallback_strengths
      weaknesses := fallback_weaknesses
      reasoning :=
        if sentences.isEmpty then "Summary unavailable."
        else String.mk (joinSpace ((sentences.take 3).map String.data)) }

/-! ## Candidate scorer (`app/ranking/matcher.py`) -/

/-- `_blend_scores`: the fixed-weight composite. -/
def blend_scores (similarity skills experience : ℚ) : ℚ :=
  0.55 * similarity + 0.25 * skills + 0.2 * experience

/-- Python `round(x, 2)` modelled as exact rational rounding to the nearest
multiple of `1/100` (tie behaviour is irrelevant to the properties proved). -/
def round2 (x : ℚ) : ℚ := ((round (x * 100) : ℤ) : ℚ) / 100

/-- The reported `match_score` field: `round(match_score * 100, 2)`. -/
def match_score_pct (similarity skills experience : ℚ) : ℚ :=
  round2 (blend_scores similarity skills experience * 100)

/-- Python truthiness of an optional float: `None` and `0.0` are falsy. -/
def truthyOpt : Option ℚ → Bool
  | none => false
  | some x => x != 0

/-- Payload of an optional float (only inspected under a truthiness guard). -/
def optValQ : Option ℚ → ℚ
  | none => 0
  | some x => x

/-- `_score_experience`: note the Python truthiness tests `if jd_experience
and resume_experience` and `if resume_experience`, under which a present but
zero estimate behaves like an absent one. -/
def score_experience (jd_experience : Option ℚ) (resume_text : String) : ℚ :=
  let resume_experience := estimate_years_of_experience resume_text
  if truthyOpt jd_experience && truthyOpt resume_experience then
    min (optValQ resume_experience / optValQ jd_experience) 1.2 / 1.2
  else if truthyOpt resume_experience then
    min (optValQ resume_experience / 10) 1
  else 0.4

/-! ## Vector store (`app/embeddings/embedding_service.py`) -/

/-- The upstream ingestion metadata of one resume. -/
structure ResumeMeta where
  candidate_name : String
  file_name : String
deriving DecidableEq

/-- A resume record handed to `build_store`. -/
structure Resume where
  text : String
  metadata : ResumeMeta
deriving DecidableEq

/-- A stored metadata entry: the assigned sequential id merged with the
resume's own metadata (`{"candidate_id": resume_id, **resume["metadata"]}`). -/
structure StoredMeta where
  candidate_id : String
  meta : ResumeMeta
deriving DecidableEq

/-- Placeholder used for out-of-range `getD` reads (never reached for the
in-range indices produced by a valid argsort permutation). -/
def dummyMeta : StoredMeta := ⟨"", ⟨"", ""⟩⟩

/-- The manager's state: the three in-memory structures (`_vectors`,
`_metadatas`, `_resume_lookup`) plus the two persisted artifact files
(`vectors.npz` content and `meta.json` content). -/
structure StoreState where
  vectors : List (List ℝ)
  metadatas : List StoredMeta
  resume_lookup : List (String × Resume)
  disk_vectors : List (List ℝ)
  disk_metadatas : List StoredMeta

/-- NumPy `ndarray.size` of the stacked vectors: total number of scalar
entries (`rows × dim` for a rectangular array). -/
def storeSize (st : StoreState) : ℕ := (st.vectors.map List.length).sum

/-- Dot product of two vectors (`zipWith` truncation never fires for the
equal-dimension vectors the store holds). -/
noncomputable def dotL (a b : List ℝ) : ℝ := (List.zipWith (fun x y => x * y) a b).sum

/-- Euclidean norm. -/
noncomputable def normL (a : List ℝ) : ℝ := Real.sqrt (dotL a a)

/-- `sklearn.metrics.pairwise.cosine_similarity` of two rows.  sklearn
leaves zero-norm rows unnormalized, which yields similarity `0` against any
vector; with real division `x / 0 = 0` this formula agrees (a zero norm
forces a zero dot product). -/
noncomputable def cosSim (a b : List ℝ) : ℝ := dotL a b / (normL a * normL b)

/-- The contract of `np.argsort(-sims)` with the default sort kind:
`order` is a permutation of all indices along which the similarities are
non-increasing.  The default kind (`quicksort`/introsort) is documented as
*not* stable, so the order of tied entries is unspecified; it is therefore
modelled as a parameter constrained by this predicate rather than as a fixed
function. -/
def IsArgsortDesc (sims : List ℝ) (order : List ℕ) : Prop :=
  order.Perm (List.range sims.length) ∧
  order.Pairwise (fun i j => sims.getD j 0 ≤ sims.getD i 0)

/-- The result rows built by `similarity_search_with_scores` from a chosen
argsort order: optional truncation `order[:k]` under Python truthiness of
`k` (`if k:` — `None` and `0` both mean "no limit"), then one
`(metadata, 1 - similarity)` pair per surviving index. -/
noncomputable def searchResults (st : StoreState) (q : List ℝ) (order : List ℕ)
    (k : Option ℕ) : List (StoredMeta × ℝ) :=
  let sims := st.vectors.map (fun v => cosSim q v)
  let order2 := match k with
    | none => order
    | some n => if n = 0 then order else order.take n
  order2.map (fun i => (st.metadatas.getD i dummyMeta, 1 - sims.getD i 0))

/-- `similarity_search_with_scores`: `none` models the
`RuntimeError("Vector store is not initialized.")` raised when
`self._vectors.size == 0`. -/
noncomputable def similarity_search_with_scores (st : StoreState) (q : List ℝ)
    (k : Option ℕ) (order : List ℕ) : Option (List (StoredMeta × ℝ)) :=
  if storeSize st = 0 then none else some (searchResults st q order k)

/-- The metadata list built by the `build_store` loop: sequential 1-based
stringified ids merged with each resume's metadata, in input order. -/
def buildMetas (resumes : List Resume) : List StoredMeta :=
  resumes.enum.map (fun p => ⟨toString (p.1 + 1), p.2.metadata⟩)

/-- The id-to-record lookup built by the `build_store` loop. -/
def buildLookup (resumes : List Resume) : List (String × Resume) :=
  resumes.enum.map (fun p => (toString (p.1 + 1), p.2))

/-- `get_resume_by_id`: exact lookup in the id-to-record mapping. -/
def get_resume_by_id (st : StoreState) (resume_id : String) : Option Resume :=
  st.resume_lookup.lookup resume_id

/-- `build_store`.  The batch embedding call (`embed_documents`, an external
model invocation that can raise) is modelled by `embedDocs`, with `none` for
a raised exception.  The returned flag records whether the call raised.
Statement order is preserved from the source: the loop rebuilds
`_resume_lookup` *before* the embedding call; the empty-batch branch clears
the in-memory vectors and metadata and returns without persisting; the
successful branch installs the new vectors and metadata and then persists
both files. -/
noncomputable def build_store (st : StoreState) (resumes : List Resume)
    (embedDocs : List String → Option (List (List ℝ))) : StoreState × Bool :=
  let texts := resumes.map Resume.text
  let metadatas := buildMetas resumes
  let st1 := { st with resume_lookup := buildLookup resumes }
  if texts.isEmpty then
    ({ st1 with vectors := [], metadatas := [] }, false)
  else
    match embedDocs texts with
    | none => (st1, true)
    | some embs =>
      ({ st1 with vectors := embs, metadatas := metadatas,
                  disk_vectors := embs, disk_metadatas := metadatas }, false)
/-! ## Auxiliary predicates and concrete instances -/

/-- No two consecutive characters of the list are both whitespace. -/
def NoWSRun (l : List Char) : Prop :=
  l.Chain' (fun a b => (isPyWS a && isPyWS b) = false)

/-- Every whitespace character of the list is a plain space. -/
def WSIsSpace (l : List Char) : Prop := ∀ c ∈ l, isPyWS c = true → c = ' '

/-- Metadata entry of the first-inserted resume in the concrete stores. -/
def wMeta1 : StoredMeta := ⟨"1", ⟨"Alice", "alice.pdf"⟩⟩

/-- Metadata entry of the second-inserted resume in the concrete stores. -/
def wMeta2 : StoredMeta := ⟨"2", ⟨"Bob", "bob.pdf"⟩⟩

/-- A two-vector store holding distinct orthogonal unit vectors. -/
noncomputable def wStore : StoreState :=
  ⟨[[1, 0], [0, 1]], [wMeta1, wMeta2], [], [], []⟩

/-- A two-vector store holding the same unit vector twice (an exact
similarity tie between two distinct records). -/
noncomputable def tieStore : StoreState :=
  ⟨[[1, 0], [1, 0]], [wMeta1, wMeta2], [], [], []⟩

/-- The store state before any build. -/
noncomputable def emptyStore : StoreState := ⟨[], [], [], [], []⟩

/-- A one-vector store of dimension 1. -/
noncomputable def oneStore : StoreState := ⟨[[2]], [wMeta1], [], [], []⟩

/-- The resume indexed by the pre-existing store state `stOld`. -/
def rOld : Resume := ⟨"old resume text", ⟨"Old", "old.pdf"⟩⟩

/-- A fresh resume used in rebuild calls. -/
def rNew : Resume := ⟨"new resume text", ⟨"New", "new.pdf"⟩⟩

/-- A store state left behind by a previous successful one-resume build: the
in-memory structures and the persisted artifact agree. -/
noncomputable def stOld : StoreState :=
  ⟨[[1]], [⟨"1", rOld.metadata⟩], [("1", rOld)], [[1]], [⟨"1", rOld.metadata⟩]⟩

/-! ## Theorems -/

theorem collapseWS_head (d : Char) (cs : List Char) (h : isPyWS d = false) :
    ∃ t, collapseWS (d :: cs) = d :: t := by
  cases cs with
  | nil => exact ⟨[], by simp [collapseWS, h]⟩
  | cons e es => exact ⟨collapseWS (e :: es), by simp [collapseWS, h]⟩

theorem collapseWS_noWSRun (l : List Char) : NoWSRun (collapseWS l) := by
  induction l using collapseWS.induct with
  | case1 => simp [collapseWS, NoWSRun]
  | case2 c hc => simp [collapseWS, hc, NoWSRun]
  | case3 c hc => simp [collapseWS, hc, NoWSRun]
  | case4 c d cs h ih =>
    rw [collapseWS, if_pos h]
    exact ih
  | case5 c d cs h ih =>
    rw [collapseWS, if_neg h]
    rw [NoWSRun, List.chain'_cons']
    refine ⟨?_, ih⟩
    intro y hy
    by_cases hc : isPyWS c = true
    · have hd : isPyWS d = false := by
        cases hdd : isPyWS d
        · rfl
        · exact absurd (by simp [hc, hdd] : (isPyWS c && isPyWS d) = true) h
      obtain ⟨t, ht⟩ := collapseWS_head d cs hd
      rw [ht] at hy
      simp only [List.head?_cons, Option.mem_def, Option.some.injEq] at hy
      subst hy
      simp [hc, hd]
    · simp only [Bool.not_eq_true] at hc
      simp [hc]

theorem collapseWS_wsIsSpace (l : List Char) : WSIsSpace (collapseWS l) := by
  induction l using collapseWS.induct with
  | case1 => intro c hc; simp [collapseWS] at hc
  | case2 c hc =>
    intro x hx _
    simp only [collapseWS, if_pos hc, List.mem_singleton] at hx
    exact hx
  | case3 c hc =>
    intro x hx hws
    simp only [collapseWS, if_neg hc, List.mem_singleton] at hx
    subst hx
    exact absurd hws hc
  | case4 c d cs h ih =>
    rw [collapseWS, if_pos h]
    exact ih
  | case5 c d cs h ih =>
    rw [collapseWS, if_neg h]
    intro x hx hws
    rcases List.mem_cons.mp hx with hx | hx
    · subst hx
      by_cases hc : isPyWS c = true
      · rw [if_pos hc]
      · rw [if_neg hc] at hws ⊢
        exact absurd hws hc
    · exact ih x hx hws

theorem collapseWS_eq_self (l : List Char) (h1 : NoWSRun l) (h2 : WSIsSpace l) :
    collapseWS l = l := by
  induction l using collapseWS.induct with
  | case1 => rfl
  | case2 c hc => simp [collapseWS, hc, h2 c (by simp) hc]
  | case3 c hc => simp [collapseWS, hc]
  | case4 c d cs h ih =>
    exfalso
    have hfalse := (List.chain'_cons'.mp h1).1 d (by cases cs <;> simp)
    rw [h] at hfalse
    exact Bool.noConfusion hfalse
  | case5 c d cs h ih =>
    rw [collapseWS, if_neg h]
    have htail : NoWSRun (d :: cs) := (List.chain'_cons'.mp h1).2
    have htail2 : WSIsSpace (d :: cs) := fun x hx => h2 x (List.mem_cons_of_mem c hx)
    rw [ih htail htail2]
    by_cases hc : isPyWS c = true
    · rw [if_pos hc, h2 c (by simp) hc]
    · rw [if_neg hc]

theorem dropWhile_head_not {p : Char → Bool} :
    ∀ (l : List Char) (a : Char), (l.dropWhile p).head? = some a → p a = false := by
  intro l
  induction l with
  | nil => intro a ha; simp [List.dropWhile] at ha
  | cons c cs ih =>
    intro a ha
    by_cases hc : p c
    · rw [List.dropWhile_cons_of_pos hc] at ha
      exact ih a ha
    · rw [List.dropWhile_cons_of_neg hc] at ha
      simp only [List.head?_cons, Option.some.injEq] at ha
      subst ha
      simpa using hc

theorem dropWhile_of_head_not {p : Char → Bool} (l : List Char)
    (h : ∀ a, l.head? = some a → p a = false) : l.dropWhile p = l := by
  cases l with
  | nil => rfl
  | cons c cs => exact List.dropWhile_cons_of_neg (by simp [h c rfl])

theorem dropWhile_dropWhile {p : Char → Bool} (l : List Char) :
    (l.dropWhile p).dropWhile p = l.dropWhile p :=
  dropWhile_of_head_not _ (fun a ha => dropWhile_head_not l a ha)

theorem rstripC_append (l : List Char) : ∃ u, rstripC l ++ u = l := by
  obtain ⟨t, ht⟩ := List.dropWhile_suffix (l := l.reverse) isPyWS
  refine ⟨t.reverse, ?_⟩
  rw [rstripC, ← List.reverse_append, ht, List.reverse_reverse]

theorem lstripC_append (l : List Char) : ∃ t, t ++ lstripC l = l :=
  List.dropWhile_suffix isPyWS

theorem lstripC_rstripC (l : List Char) (h : lstripC l = l) :
    lstripC (rstripC l) = rstripC l := by
  apply dropWhile_of_head_not
  intro a ha
  obtain ⟨u, hu⟩ := rstripC_append l
  have hl : l.head? = some a := by
    cases hr : rstripC l with
    | nil => rw [hr] at ha; simp at ha
    | cons b t =>
      rw [hr] at ha
      simp only [List.head?_cons, Option.some.injEq] at ha
      subst ha
      rw [← hu, hr]
      rfl
  have h2 : (l.dropWhile isPyWS).head? = some a := by
    show (lstripC l).head? = some a
    rw [h]
    exact hl
  exact dropWhile_head_not l a h2

theorem rstripC_idem (l : List Char) : rstripC (rstripC l) = rstripC l := by
  unfold rstripC
  rw [List.reverse_reverse, dropWhile_dropWhile]

theorem pyStrip_idem (l : List Char) : pyStrip (pyStrip l) = pyStrip l := by
  unfold pyStrip
  rw [lstripC_rstripC (lstripC l) (dropWhile_dropWhile l), rstripC_idem]

theorem noWSRun_append_left {t u : List Char}
    (h : NoWSRun (t ++ u)) : NoWSRun t :=
  (List.chain'_append.mp h).1

theorem noWSRun_append_right {t u : List Char}
    (h : NoWSRun (t ++ u)) : NoWSRun u :=
  (List.chain'_append.mp h).2.1

theorem pyStrip_preserves (l : List Char) (h1 : NoWSRun l) (h2 : WSIsSpace l) :
    NoWSRun (pyStrip l) ∧ WSIsSpace (pyStrip l) := by
  obtain ⟨t, ht⟩ := lstripC_append l
  have hl1 : NoWSRun (lstripC l) := noWSRun_append_right (ht ▸ h1)
  have hl2 : WSIsSpace (lstripC l) := by
    intro c hc
    exact h2 c (by rw [← ht]; exact List.mem_append_right t hc)
  obtain ⟨u, hu⟩ := rstripC_append (lstripC l)
  constructor
  · exact noWSRun_append_left (hu ▸ hl1)
  · intro c hc
    exact hl2 c (by rw [← hu]; exact List.mem_append_left u hc)

/-- C9: `clean_text` is idempotent: collapsing whitespace runs to single
spaces and trimming both ends is a fixed point after one application. -/
theorem clean_text_idempotent (s : String) :
    clean_text (clean_text s) = clean_text s := by
  show String.mk (pyStrip (collapseWS (pyStrip (collapseWS s.data)))) =
    String.mk (pyStrip (collapseWS s.data))
  have hpres := pyStrip_preserves (collapseWS s.data)
    (collapseWS_noWSRun s.data) (collapseWS_wsIsSpace s.data)
  rw [collapseWS_eq_self _ hpres.1 hpres.2, pyStrip_idem]

/-- C2: the composite match score is the fixed weighted sum
`0.55·similarity + 0.25·skill + 0.20·experience`; for inputs in `[0,1]` the
blend lies in `[0,1]` and the reported score (`round(blend*100, 2)`) lies in
`[0, 100]`. -/
theorem match_score_bounds (s k e : ℚ)
    (hs0 : 0 ≤ s) (hs1 : s ≤ 1) (hk0 : 0 ≤ k) (hk1 : k ≤ 1)
    (he0 : 0 ≤ e) (he1 : e ≤ 1) :
    (0 ≤ blend_scores s k e ∧ blend_scores s k e ≤ 1) ∧
    0 ≤ match_score_pct s k e ∧ match_score_pct s k e ≤ 100 := by
  have hb0 : 0 ≤ blend_scores s k e := by unfold blend_scores; nlinarith
  have hb1 : blend_scores s k e ≤ 1 := by unfold blend_scores; nlinarith
  refine ⟨⟨hb0, hb1⟩, ?_, ?_⟩
  · unfold match_score_pct round2
    have h0 : (0:ℤ) ≤ round (blend_scores s k e * 100 * 100) := by
      rw [round_eq]
      refine Int.le_floor.mpr ?_
      push_cast
      nlinarith
    have h0q : (0:ℚ) ≤ ((round (blend_scores s k e * 100 * 100) : ℤ) : ℚ) := by
      exact_mod_cast h0
    linarith
  · unfold match_score_pct round2
    have hup : round (blend_scores s k e * 100 * 100) ≤ 10000 := by
      rw [round_eq]
      have hle : blend_scores s k e * 100 * 100 + 1 / 2 ≤ (10000:ℚ) + 1 / 2 := by
        nlinarith
      calc ⌊blend_scores s k e * 100 * 100 + 1 / 2⌋
          ≤ ⌊(10000:ℚ) + 1 / 2⌋ := Int.floor_mono hle
        _ = 10000 := by norm_num
    have hupq : ((round (blend_scores s k e * 100 * 100) : ℤ) : ℚ) ≤ 10000 := by
      exact_mod_cast hup
    linarith

/-- Witness for `match_score_bounds` at similarity `1/2`, skills `1/4`,
experience `1`. -/
theorem match_score_bounds_witness :
    ((0:ℚ) ≤ blend_scores 0.5 0.25 1 ∧ blend_scores 0.5 0.25 1 ≤ 1) ∧
    0 ≤ match_score_pct 0.5 0.25 1 ∧ match_score_pct 0.5 0.25 1 ≤ 100 :=
  match_score_bounds 0.5 0.25 1 (by norm_num) (by norm_num) (by norm_num)
    (by norm_num) (by norm_num) (by norm_num)

/-- C3 (amended): the experience score follows the claimed formulas only on
estimates that are *present and nonzero*; a zero estimate is falsy in Python
(`if jd_experience and resume_experience`) and behaves like an absent one. -/
theorem score_experience_cases (jd_text resume_text : String) :
    (∀ j y : ℚ, estimate_years_of_experience jd_text = some j → j ≠ 0 →
      estimate_years_of_experience resume_text = some y → y ≠ 0 →
      score_experience (estimate_years_of_experience jd_text) resume_text =
        min (y / j) 1.2 / 1.2) ∧
    (∀ y : ℚ, estimate_years_of_experience resume_text = some y → y ≠ 0 →
      (estimate_years_of_experience jd_text = none ∨
        estimate_years_of_experience jd_text = some 0) →
      score_experience (estimate_years_of_experience jd_text) resume_text =
        min (y / 10) 1) ∧
    ((estimate_years_of_experience resume_text = none ∨
        estimate_years_of_experience resume_text = some 0) →
      score_experience (estimate_years_of_experience jd_text) resume_text = 0.4) := by
  refine ⟨?_, ?_, ?_⟩
  · intro j y hj hj0 hy hy0
    simp [score_experience, hj, hy, truthyOpt, optValQ, hj0, hy0]
  · intro y hy hy0 hjd
    rcases hjd with hjd | hjd <;>
      simp [score_experience, hjd, hy, truthyOpt, optValQ, hy0]
  · intro hres
    rcases hres with hres | hres <;>
      simp [score_experience, hres, truthyOpt, optValQ]

/-- Counterexample to C3 as stated: on resume text `"0 yrs"` the resume
estimate is *present* (`some 0`), so the claim prescribes
`min(0/10, 1) = 0`, but the code's truthiness test sends a zero estimate to
the fixed `0.4` branch. -/
theorem score_experience_zero_years_counterexample :
    estimate_years_of_experience "0 yrs" = some 0 ∧
    score_experience none "0 yrs" = 0.4 ∧
    score_experience none "0 yrs" ≠ min ((0:ℚ) / 10) 1 := by
  have h : scanYears "0 yrs".data = [0] := by decide
  have hest : estimate_years_of_experience "0 yrs" = some 0 := by
    simp [estimate_years_of_experience, h]
  have hscore : score_experience none "0 yrs" = 0.4 := by
    simp [score_experience, hest, truthyOpt, optValQ]
  refine ⟨hest, hscore, ?_⟩
  rw [hscore]
  norm_num

/-- Witness for `score_experience_cases`: JD asks 4 years, resume shows 5. -/
theorem score_experience_cases_witness :
    score_experience (estimate_years_of_experience "4 years") "5 years" =
      min ((5:ℚ) / 4) 1.2 / 1.2 :=
  (score_experience_cases "4 years" "5 years").1 4 5
    (by
      have h : scanYears "4 years".data = [4] := by decide
      simp [estimate_years_of_experience, h])
    (by norm_num)
    (by
      have h : scanYears "5 years".data = [5] := by decide
      simp [estimate_years_of_experience, h])
    (by norm_num)

/-- Every final section value is non-empty: the empty section is replaced by
the literal default. -/
theorem finishSection_ne_empty (v : List Char) : finishSection v ≠ "" := by
  simp only [finishSection]
  split
  · decide
  · rename_i h
    intro hcontra
    have hdata : pyStrip v = [] := by simpa using congrArg String.data hcontra
    rw [hdata] at h
    simp at h

/-- C7: `_parse_llm_response` on the spec's example yields exactly the three
claimed section values, and on every input all three keys are populated
(missing or empty sections become the literal `"Not provided."`, hence are
never the empty string). -/
theorem parse_llm_response_spec :
    parse_llm_response "Strengths: Good coder\nWeaknesses: slow\nReasoning: solid fit" =
      ⟨"Good coder", "slow", "solid fit"⟩ ∧
    ∀ content : String,
      (parse_llm_response content).strengths ≠ "" ∧
      (parse_llm_response content).weaknesses ≠ "" ∧
      (parse_llm_response content).reasoning ≠ "" := by
  refine ⟨by decide, fun content => ?_⟩
  refine ⟨?_, ?_, ?_⟩ <;>
    · simp only [parse_llm_response]
      exact finishSection_ne_empty _

/-- Every sentence returned by `split_sentences` is non-empty (empty
fragments are filtered out after stripping). -/
theorem split_sentences_mem_ne_empty (s x : String)
    (hx : x ∈ split_sentences s) : x ≠ "" := by
  simp only [split_sentences, List.mem_map, List.mem_filter] at hx
  obtain ⟨l, ⟨_, hne⟩, rfl⟩ := hx
  intro hcontra
  have hdata : l = [] := by simpa using congrArg String.data hcontra
  rw [hdata] at hne
  simp at hne

/-- Space-joining a list whose first element is non-empty gives a non-empty
result. -/
theorem joinSpace_ne_nil (x : List Char) (xs : List (List Char)) (hx : x ≠ []) :
    joinSpace (x :: xs) ≠ [] := by
  cases xs with
  | nil => simpa [joinSpace] using hx
  | cons y ys => simp [joinSpace]

/-- C6: when the generation call fails (for any reason, modelled by
`callOllama` returning `none`), `analyze_candidate` returns the heuristic
fallback — the two fixed canned sentences plus a reasoning synthesized from
the first three sentences of the resume via the sentence splitter (or a
fixed placeholder when the resume has no sentences) — and all three fields
are non-empty; the fallback is a total function, so it never raises. -/
theorem analyze_candidate_fallback (callF : String → Option String)
    (candidate_name job_description resume_text : String)
    (hfail : callF (format_prompt candidate_name job_description resume_text) = none) :
    analyze_candidate callF candidate_name job_description resume_text =
      { strengths := fallback_strengths
        weaknesses := fallback_weaknesses
        reasoning :=
          if (split_sentences resume_text).isEmpty then "Summary unavailable."
          else String.mk (joinSpace (((split_sentences resume_text).take 3).map String.data)) } ∧
    (analyze_candidate callF candidate_name job_description resume_text).strengths ≠ "" ∧
    (analyze_candidate callF candidate_name job_description resume_text).weaknesses ≠ "" ∧
    (analyze_candidate callF candidate_name job_description resume_text).reasoning ≠ "" := by
  have heq : analyze_candidate callF candidate_name job_description resume_text =
      { strengths := fallback_strengths
        weaknesses := fallback_weaknesses
        reasoning :=
          if (split_sentences resume_text).isEmpty then "Summary unavailable."
          else String.mk (joinSpace (((split_sentences resume_text).take 3).map String.data)) } := by
    simp only [analyze_candidate, hfail]
  refine ⟨heq, ?_, ?_, ?_⟩ <;> rw [heq]
  · show fallback_strengths ≠ ""
    decide
  · show fallback_weaknesses ≠ ""
    decide
  · show (if (split_sentences resume_text).isEmpty then "Summary unavailable."
      else String.mk (joinSpace (((split_sentences resume_text).take 3).map String.data))) ≠ ""
    by_cases hs : (split_sentences resume_text).isEmpty
    · rw [if_pos hs]
      decide
    · rw [if_neg hs]
      obtain ⟨x, xs, hxx⟩ : ∃ x xs, split_sentences resume_text = x :: xs := by
        cases hsp : split_sentences resume_text with
        | nil => rw [hsp] at hs; simp at hs
        | cons a b => exact ⟨a, b, rfl⟩
      have hxne : x ≠ "" :=
        split_sentences_mem_ne_empty resume_text x (by rw [hxx]; exact List.mem_cons_self x xs)
      have hxdata : x.data ≠ [] := by
        intro hcontra
        exact hxne (by rw [show x = String.mk x.data from rfl, hcontra])
      rw [hxx]
      rw [show ((x :: xs).take 3).map String.data =
        x.data :: ((xs.take 2).map String.data) by rfl]
      intro hcontra
      have : joinSpace (x.data :: (xs.take 2).map String.data) = [] := by
        simpa using congrArg String.data hcontra
      exact joinSpace_ne_nil x.data _ hxdata this

/-- Witness for `analyze_candidate_fallback`: a forced failure on a concrete
resume with four sentences. -/
theorem analyze_candidate_fallback_witness :
    analyze_candidate (fun _ => none) "Alice" "Need a python dev."
        "Py dev. Good tester. Fast learner. Extra detail." =
      { strengths := fallback_strengths
        weaknesses := fallback_weaknesses
        reasoning :=
          if (split_sentences "Py dev. Good tester. Fast learner. Extra detail.").isEmpty
          then "Summary unavailable."
          else String.mk (joinSpace
            (((split_sentences "Py dev. Good tester. Fast learner. Extra detail.").take 3).map
              String.data)) } ∧
    (analyze_candidate (fun _ => none) "Alice" "Need a python dev."
      "Py dev. Good tester. Fast learner. Extra detail.").strengths ≠ "" ∧
    (analyze_candidate (fun _ => none) "Alice" "Need a python dev."
      "Py dev. Good tester. Fast learner. Extra detail.").weaknesses ≠ "" ∧
    (analyze_candidate (fun _ => none) "Alice" "Need a python dev."
      "Py dev. Good tester. Fast learner. Extra detail.").reasoning ≠ "" :=
  analyze_candidate_fallback (fun _ => none) "Alice" "Need a python dev."
    "Py dev. Good tester. Fast learner. Extra detail." rfl

theorem dotL_pair (a b c d : ℝ) : dotL [a, b] [c, d] = a * c + b * d := by
  simp [dotL]

theorem cosSim_e1_e1 : cosSim [(1:ℝ), 0] [1, 0] = 1 := by
  have h : dotL [(1:ℝ), 0] [1, 0] = 1 := by rw [dotL_pair]; ring
  rw [cosSim, normL, h, Real.sqrt_one]
  norm_num

theorem cosSim_e1_e2 : cosSim [(1:ℝ), 0] [0, 1] = 0 := by
  have h : dotL [(1:ℝ), 0] [0, 1] = 0 := by rw [dotL_pair]; ring
  rw [cosSim, h]
  norm_num

theorem wStore_sims : wStore.vectors.map (fun v => cosSim [(1:ℝ), 0] v) = [1, 0] := by
  simp [wStore, cosSim_e1_e1, cosSim_e1_e2]

theorem tieStore_sims : tieStore.vectors.map (fun v => cosSim [(1:ℝ), 0] v) = [1, 1] := by
  simp [tieStore, cosSim_e1_e1]

theorem wStore_argsort :
    IsArgsortDesc (wStore.vectors.map (fun v => cosSim [(1:ℝ), 0] v)) [0, 1] := by
  rw [IsArgsortDesc, wStore_sims]
  constructor
  · simp [List.range_succ]
  · simp [List.pairwise_cons, List.getD]

theorem storeSize_ne_zero (st : StoreState) (d : ℕ) (hd : 0 < d)
    (hvec : ∀ v ∈ st.vectors, v.length = d) (hne : st.vectors ≠ []) :
    storeSize st ≠ 0 := by
  obtain ⟨v, rest, hv⟩ := List.exists_cons_of_ne_nil hne
  rw [storeSize, hv]
  simp only [List.map_cons, List.sum_cons]
  have hvd := hvec v (by rw [hv]; exact List.mem_cons_self v rest)
  omega

/-- C1 (amended): on a non-empty store of positive-dimension vectors with a
matching-dimension query, `similarity_search_with_scores` (with `k` absent)
returns, for any index order admitted by `argsort` on the similarities, one
`(metadata, 1 − cosine_similarity)` pair per stored vector, sorted by
ascending distance.  The order of tied entries is *not* part of the
contract: the default `argsort` kind is not stable. -/
theorem search_results_characterization (st : StoreState) (q : List ℝ)
    (order : List ℕ) (d : ℕ) (hd : 0 < d) (hvec : ∀ v ∈ st.vectors, v.length = d)
    (hq : q.length = d) (hne : st.vectors ≠ [])
    (hsort : IsArgsortDesc (st.vectors.map (fun v => cosSim q v)) order) :
    similarity_search_with_scores st q none order = some (searchResults st q order none) ∧
    (searchResults st q order none).Perm
      ((List.range st.vectors.length).map (fun i =>
        (st.metadatas.getD i dummyMeta,
          1 - (st.vectors.map (fun v => cosSim q v)).getD i 0))) ∧
    List.Sorted (fun a b : ℝ => a ≤ b)
      ((searchResults st q order none).map Prod.snd) := by
  have hsize : storeSize st ≠ 0 := storeSize_ne_zero st d hd hvec hne
  have hform : searchResults st q order none = order.map (fun i =>
      (st.metadatas.getD i dummyMeta,
        1 - (st.vectors.map (fun v => cosSim q v)).getD i 0)) := rfl
  refine ⟨?_, ?_, ?_⟩
  · rw [similarity_search_with_scores, if_neg hsize]
  · rw [hform]
    apply List.Perm.map
    have hperm := hsort.1
    rwa [List.length_map] at hperm
  · have hsnd : (searchResults st q order none).map Prod.snd =
        order.map (fun i => 1 - (st.vectors.map (fun v => cosSim q v)).getD i 0) := by
      rw [hform, List.map_map]
      rfl
    rw [hsnd]
    exact List.Pairwise.map _ (fun i j hij => by linarith) hsort.2

/-- Witness for `search_results_characterization` on a concrete two-vector
store queried with its first vector. -/
theorem search_results_characterization_witness :
    similarity_search_with_scores wStore [1, 0] none [0, 1] =
      some (searchResults wStore [1, 0] [0, 1] none) ∧
    (searchResults wStore [1, 0] [0, 1] none).Perm
      ((List.range wStore.vectors.length).map (fun i =>
        (wStore.metadatas.getD i dummyMeta,
          1 - (wStore.vectors.map (fun v => cosSim [1, 0] v)).getD i 0))) ∧
    List.Sorted (fun a b : ℝ => a ≤ b)
      ((searchResults wStore [1, 0] [0, 1] none).map Prod.snd) :=
  search_results_characterization wStore [1, 0] [0, 1] 2 (by norm_num)
    (by
      intro v hv
      simp only [wStore, List.mem_cons, List.not_mem_nil, or_false] at hv
      rcases hv with h | h <;> rw [h] <;> rfl)
    (by rfl) (by simp [wStore]) wStore_argsort

/-- Counterexample to C1 as stated: on a store holding the same vector
twice, the reversed index order `[1, 0]` is a valid output of the (unstable)
default `argsort`, and the resulting pair list puts the second-inserted
record before the first although their similarities are equal — the
insertion-order tie-break claimed by the spec is not guaranteed. -/
theorem search_tie_not_stable_counterexample :
    IsArgsortDesc (tieStore.vectors.map (fun v => cosSim [(1:ℝ), 0] v)) [1, 0] ∧
    similarity_search_with_scores tieStore [(1:ℝ), 0] none [1, 0] =
      some [(wMeta2, 0), (wMeta1, 0)] ∧
    wMeta2 ≠ wMeta1 := by
  refine ⟨?_, ?_, by decide⟩
  · rw [IsArgsortDesc, tieStore_sims]
    constructor
    · simp only [List.length_cons, List.length_nil]
      decide
    · simp [List.pairwise_cons, List.getD]
  · have hsize : storeSize tieStore ≠ 0 := by
      rw [storeSize]
      simp [tieStore]
    rw [similarity_search_with_scores, if_neg hsize]
    have : searchResults tieStore [(1:ℝ), 0] [1, 0] none = [(wMeta2, 0), (wMeta1, 0)] := by
      rw [searchResults]
      simp only [tieStore_sims]
      simp [tieStore, List.getD]
    rw [this]

/-- C5: under the store invariant (all stored vectors share the embedding
model's positive dimension), `similarity_search_with_scores` raises the
"not initialized" error (modelled by `none`) exactly when no vectors are
stored: the `self._vectors.size == 0` test holds iff the vector list is
empty. -/
theorem search_raises_iff_empty (st : StoreState) (q : List ℝ) (k : Option ℕ)
    (order : List ℕ) (d : ℕ) (hd : 0 < d) (hvec : ∀ v ∈ st.vectors, v.length = d) :
    similarity_search_with_scores st q k order = none ↔ st.vectors = [] := by
  rw [similarity_search_with_scores]
  constructor
  · intro h
    by_cases hsz : storeSize st = 0
    · cases hv : st.vectors with
      | nil => rfl
      | cons v rest =>
        exfalso
        exact storeSize_ne_zero st d hd hvec (by rw [hv]; simp) hsz
    · rw [if_neg hsz] at h
      exact Option.noConfusion h
  · intro h
    have hsz : storeSize st = 0 := by rw [storeSize, h]; rfl
    rw [if_pos hsz]

/-- Witness for `search_raises_iff_empty`: the empty store raises, a
one-vector store does not. -/
theorem search_raises_iff_empty_witness :
    similarity_search_with_scores emptyStore [1] none [] = none ∧
    similarity_search_with_scores oneStore [1] none [0] ≠ none :=
  ⟨(search_raises_iff_empty emptyStore [1] none [] 1 one_pos
      (by intro v hv; simp [emptyStore] at hv)).mpr rfl,
   fun h => by
     have hempty := (search_raises_iff_empty oneStore [1] none [0] 1 one_pos
       (by
         intro v hv
         simp only [oneStore, List.mem_cons, List.not_mem_nil, or_false] at hv
         rw [hv]
         rfl)).mp h
     simp [oneStore] at hempty⟩

/-- C10: `k = 0` is falsy in Python, so `order[:k]` is never taken:
searching a non-empty store with `k = 0` returns exactly the same full
result list (one pair per stored vector) as searching with `k` absent. -/
theorem search_k_zero_is_no_limit (st : StoreState) (q : List ℝ) (order : List ℕ)
    (d : ℕ) (hd : 0 < d) (hvec : ∀ v ∈ st.vectors, v.length = d)
    (hne : st.vectors ≠ [])
    (hsort : IsArgsortDesc (st.vectors.map (fun v => cosSim q v)) order) :
    similarity_search_with_scores st q (some 0) order =
      similarity_search_with_scores st q none order ∧
    similarity_search_with_scores st q (some 0) order =
      some (searchResults st q order none) ∧
    (searchResults st q order none).length = st.vectors.length := by
  have hsize : storeSize st ≠ 0 := storeSize_ne_zero st d hd hvec hne
  have hres : searchResults st q order (some 0) = searchResults st q order none := rfl
  refine ⟨?_, ?_, ?_⟩
  · rw [similarity_search_with_scores, similarity_search_with_scores,
      if_neg hsize, if_neg hsize, hres]
  · rw [similarity_search_with_scores, if_neg hsize, hres]
  · have hlen : order.length = st.vectors.length := by
      have hperm := hsort.1.length_eq
      rwa [List.length_range, List.length_map] at hperm
    have hform : searchResults st q order none = order.map (fun i =>
        (st.metadatas.getD i dummyMeta,
          1 - (st.vectors.map (fun v => cosSim q v)).getD i 0)) := rfl
    rw [hform, List.length_map]
    exact hlen

/-- Witness for `search_k_zero_is_no_limit` on the concrete two-vector
store. -/
theorem search_k_zero_is_no_limit_witness :
    similarity_search_with_scores wStore [1, 0] (some 0) [0, 1] =
      similarity_search_with_scores wStore [1, 0] none [0, 1] ∧
    similarity_search_with_scores wStore [1, 0] (some 0) [0, 1] =
      some (searchResults wStore [1, 0] [0, 1] none) ∧
    (searchResults wStore [1, 0] [0, 1] none).length = wStore.vectors.length :=
  search_k_zero_is_no_limit wStore [1, 0] [0, 1] 2 (by norm_num)
    (by
      intro v hv
      simp only [wStore, List.mem_cons, List.not_mem_nil, or_false] at hv
      rcases hv with h | h <;> rw [h] <;> rfl)
    (by simp [wStore]) wStore_argsort

theorem build_store_empty_eq (st : StoreState)
    (embedDocs : List String → Option (List (List ℝ))) :
    build_store st [] embedDocs =
      ({ st with resume_lookup := [], vectors := [], metadatas := [] }, false) := rfl

theorem build_store_some_eq (st : StoreState) (resumes : List Resume)
    (embedDocs : List String → Option (List (List ℝ))) (embs : List (List ℝ))
    (hne : resumes ≠ []) (hemb : embedDocs (resumes.map Resume.text) = some embs) :
    build_store st resumes embedDocs =
      (StoreState.mk embs (buildMetas resumes) (buildLookup resumes) embs
        (buildMetas resumes), false) := by
  obtain ⟨r, rest, hr⟩ := List.exists_cons_of_ne_nil hne
  subst hr
  rw [List.map_cons] at hemb
  rw [build_store]
  simp only [List.map_cons, List.isEmpty_cons, Bool.false_eq_true, if_false, hemb]

theorem build_store_none_eq (st : StoreState) (resumes : List Resume)
    (embedDocs : List String → Option (List (List ℝ)))
    (hne : resumes ≠ []) (hemb : embedDocs (resumes.map Resume.text) = none) :
    build_store st resumes embedDocs =
      ({ st with resume_lookup := buildLookup resumes }, true) := by
  obtain ⟨r, rest, hr⟩ := List.exists_cons_of_ne_nil hne
  subst hr
  rw [List.map_cons] at hemb
  rw [build_store]
  simp only [List.map_cons, List.isEmpty_cons, Bool.false_eq_true, if_false, hemb]

/-- C4 (amended): a `build_store` call that completes successfully replaces
vectors, metadata and lookup together with values derived only from the new
batch (an empty batch clears all three); but a call whose batch-embedding
step raises has already replaced the id→record lookup while vectors and
metadata keep their old values, so after such a failed call a reader
observes a partially updated mixture. -/
theorem build_store_update_semantics (st : StoreState) (resumes : List Resume)
    (embedDocs : List String → Option (List (List ℝ))) :
    (resumes = [] →
      build_store st resumes embedDocs =
        ({ st with resume_lookup := [], vectors := [], metadatas := [] }, false)) ∧
    (∀ embs, resumes ≠ [] → embedDocs (resumes.map Resume.text) = some embs →
      build_store st resumes embedDocs =
        (StoreState.mk embs (buildMetas resumes) (buildLookup resumes) embs
          (buildMetas resumes), false)) ∧
    (resumes ≠ [] → embedDocs (resumes.map Resume.text) = none →
      build_store st resumes embedDocs =
        ({ st with resume_lookup := buildLookup resumes }, true)) := by
  refine ⟨?_, ?_, ?_⟩
  · intro h
    subst h
    exact build_store_empty_eq st embedDocs
  · intro embs hne hemb
    exact build_store_some_eq st resumes embedDocs embs hne hemb
  · intro hne hemb
    exact build_store_none_eq st resumes embedDocs hne hemb

/-- Counterexample to C4 as stated: rebuilding a one-resume store with a new
batch whose embedding step fails leaves the lookup rebuilt for the new batch
while the vectors keep their old value — a mixture of old and new
structures is observable after the call. -/
theorem build_store_partial_on_failure_counterexample :
    (build_store stOld [rNew] (fun _ => none)).2 = true ∧
    (build_store stOld [rNew] (fun _ => none)).1.resume_lookup = [("1", rNew)] ∧
    (build_store stOld [rNew] (fun _ => none)).1.vectors = stOld.vectors ∧
    (build_store stOld [rNew] (fun _ => none)).1.resume_lookup ≠ stOld.resume_lookup := by
  have heq : build_store stOld [rNew] (fun _ => none) =
      ({ stOld with resume_lookup := buildLookup [rNew] }, true) :=
    build_store_none_eq stOld [rNew] (fun _ => none) (by simp) rfl
  rw [heq]
  exact ⟨rfl, by decide, rfl, by decide⟩

/-- Witness for `build_store_update_semantics`: a successful rebuild of the
one-resume store with a fresh batch. -/
theorem build_store_update_semantics_witness :
    build_store stOld [rNew] (fun _ => some [[2]]) =
      (StoreState.mk [[2]] (buildMetas [rNew]) (buildLookup [rNew]) [[2]]
        (buildMetas [rNew]), false) :=
  (build_store_update_semantics stOld [rNew] (fun _ => some [[2]])).2.1 [[2]]
    (by simp) rfl

/-- C8 (amended): after a *successful non-empty* `build_store` call the
persisted artifact (vector file and metadata file) is fully overwritten and
equals the new in-memory state; but an empty-batch call returns before
`_persist`, and a failed embedding step also skips it, so in both of those
cases the artifact keeps its previous content and does not reflect the new
in-memory store state. -/
theorem build_store_persist_semantics (st : StoreState) (resumes : List Resume)
    (embedDocs : List String → Option (List (List ℝ))) :
    (∀ embs, resumes ≠ [] → embedDocs (resumes.map Resume.text) = some embs →
      (build_store st resumes embedDocs).1.disk_vectors =
          (build_store st resumes embedDocs).1.vectors ∧
        (build_store st resumes embedDocs).1.disk_metadatas =
          (build_store st resumes embedDocs).1.metadatas) ∧
    (resumes = [] →
      (build_store st resumes embedDocs).1.disk_vectors = st.disk_vectors ∧
      (build_store st resumes embedDocs).1.disk_metadatas = st.disk_metadatas) ∧
    (resumes ≠ [] → embedDocs (resumes.map Resume.text) = none →
      (build_store st resumes embedDocs).1.disk_vectors = st.disk_vectors ∧
      (build_store st resumes embedDocs).1.disk_metadatas = st.disk_metadatas) := by
  refine ⟨?_, ?_, ?_⟩
  · intro embs hne hemb
    rw [build_store_some_eq st resumes embedDocs embs hne hemb]
    exact ⟨rfl, rfl⟩
  · intro h
    subst h
    rw [build_store_empty_eq st embedDocs]
    exact ⟨rfl, rfl⟩
  · intro hne hemb
    rw [build_store_none_eq st resumes embedDocs hne hemb]
    exact ⟨rfl, rfl⟩

/-- Counterexample to C8 as stated: calling `build_store` with an empty
batch clears the in-memory store but returns before `_persist`, so the
persisted artifact keeps its old content and does not reflect the new
in-memory state. -/
theorem build_store_persist_skipped_counterexample :
    (build_store stOld [] (fun _ => none)).1.vectors = [] ∧
    (build_store stOld [] (fun _ => none)).1.disk_vectors = [[1]] ∧
    (build_store stOld [] (fun _ => none)).1.disk_vectors ≠
      (build_store stOld [] (fun _ => none)).1.vectors := by
  rw [build_store_empty_eq stOld (fun _ => none)]
  refine ⟨rfl, rfl, ?_⟩
  simp [stOld]

/-- Witness for `build_store_persist_semantics`: after the successful
rebuild the artifact equals the in-memory state. -/
theorem build_store_persist_semantics_witness :
    (build_store stOld [rNew] (fun _ => some [[2]])).1.disk_vectors =
        (build_store stOld [rNew] (fun _ => some [[2]])).1.vectors ∧
      (build_store stOld [rNew] (fun _ => some [[2]])).1.disk_metadatas =
        (build_store stOld [rNew] (fun _ => some [[2]])).1.metadatas :=
  (build_store_persist_semantics stOld [rNew] (fun _ => some [[2]])).1 [[2]]
    (by simp) rfl
